import Mathlib

/-!
# student-service: repository and HTTP mapping layer

A shallow embedding of `models/student.go`, `repositories/student_repository.go`
and the route handlers of `main.go`.

The `*sql.DB` handle is modelled as an explicit value `DB`: the rows of table
`students` in storage (rowid) order together with the AUTOINCREMENT high-water
mark the engine keeps for the table.  Each SQL statement the repository issues
is a function on `DB`.  A lookup by id reads the table; the two-column listing
`SELECT id, name` is read from the index the engine keeps for `name ... UNIQUE`,
which holds exactly these two columns, so its rows come in the order of that
index and not in the order of the table.  Go's `error` is the inductive `Error`; a method that
mutates the database returns the new `DB` next to its result.  Storage faults
that do not depend on the data (I/O errors, a closed handle, exhaustion of the
rowid space) are outside the model: a statement fails only through the
constraints declared in `createTableSQL`.
-/

namespace StudentService

/-! ## models/student.go -/

/-- The Go struct `models.Student`. -/
structure Student where
  ID : Int
  Name : String
  Grade : Int
deriving DecidableEq, Repr

/-! ## The table created by `createTableSQL` -/

/-- One row of `students (id INTEGER PRIMARY KEY AUTOINCREMENT, name TEXT NOT NULL UNIQUE,
age INTEGER, grade TEXT)`; `age` and `grade` are nullable. -/
structure Row where
  id : Int
  name : String
  age : Option Int
  grade : Option String
deriving DecidableEq, Repr

/-- The database behind `*sql.DB`: the rows of `students` in storage order and the
largest rowid the table has ever held (the AUTOINCREMENT counter, 0 when no row was
ever inserted). -/
structure DB where
  rows : List Row
  seq : Int
deriving DecidableEq, Repr

/-- The table right after `CREATE TABLE IF NOT EXISTS` on a fresh database file. -/
def DB.empty : DB := { rows := [], seq := 0 }

/-- Go `error` values that occur on the modelled paths. -/
inductive Error where
  | ErrStudentNotFound
  | ErrDuplicateName
  | ErrNoRows
  | driver (msg : String)
deriving DecidableEq, Repr

/-- The text `err.Error()` of an error value. -/
def Error.msg : Error → String
  | .ErrStudentNotFound => "student not found"
  | .ErrDuplicateName => "student with this name already exists"
  | .ErrNoRows => "sql: no rows in result set"
  | .driver msg => msg

/-- The error the driver reports when `name TEXT NOT NULL UNIQUE` is violated. -/
def uniqueViolation : Error := .driver "UNIQUE constraint failed: students.name"

/-- Largest rowid among the rows (0 for an empty table). -/
def maxRowid (rows : List Row) : Int :=
  rows.foldl (fun m r => max m r.id) 0

/-- The rowid AUTOINCREMENT gives the next inserted row: one more than the largest
rowid that ever existed in the table. -/
def nextRowid (db : DB) : Int :=
  max db.seq (maxRowid db.rows) + 1

/-- The statement `INSERT INTO students (name) VALUES (?)`: fails on the UNIQUE
constraint leaving the table as it was, otherwise appends the row and yields the new
database and `LastInsertId`. -/
def execInsert (db : DB) (name : String) : Except Error (DB × Int) :=
  if db.rows.any (fun r => decide (r.name = name)) then
    .error uniqueViolation
  else
    let id := nextRowid db
    .ok ({ rows := db.rows ++ [{ id := id, name := name, age := none, grade := none }],
           seq := id }, id)

/-- The statement `UPDATE students SET name = ? WHERE id = ?`: fails on the UNIQUE
constraint (a row being changed would take the name of an other row) leaving the
table as it was, otherwise yields the new database and `RowsAffected`. -/
def execUpdate (db : DB) (name : String) (id : Int) : Except Error (DB × Nat) :=
  let n := db.rows.countP (fun r => decide (r.id = id))
  if n ≠ 0 ∧ db.rows.any (fun r => decide (r.id ≠ id ∧ r.name = name)) then
    .error uniqueViolation
  else
    let rows := db.rows.map (fun r => if r.id = id then { r with name := name } else r)
    .ok ({ db with rows := rows }, n)

/-- The statement `DELETE FROM students WHERE id = ?` with its `RowsAffected`. -/
def execDelete (db : DB) (id : Int) : DB × Nat :=
  ({ db with rows := db.rows.filter (fun r => decide (r.id ≠ id)) },
   db.rows.countP (fun r => decide (r.id = id)))

/-- Order of the entries of the index kept for `name TEXT NOT NULL UNIQUE`: by name
under the default BINARY collation (bytewise, which on UTF-8 text is the lexicographic
order of the characters, the order of `String`), then by rowid. -/
def indexLE (a b : Row) : Prop :=
  a.name.toList < b.name.toList ∨ (a.name = b.name ∧ a.id ≤ b.id)

instance indexLE.decidable : DecidableRel indexLE :=
  fun a b => inferInstanceAs
    (Decidable (a.name.toList < b.name.toList ∨ (a.name = b.name ∧ a.id ≤ b.id)))

/-- A scan of the index on `name`: the rows of the table in index order. -/
def indexScan (rows : List Row) : List Row :=
  rows.insertionSort indexLE

/-- The query `SELECT id, name FROM students` with, when `args` holds a name, the
clause ` WHERE name = ?` appended. Both columns are in the index on `name`, and the
engine answers the query from that index alone: every row once, in index order. -/
def querySelect (db : DB) (args : List String) : List (Int × String) :=
  match args with
  | [] => (indexScan db.rows).map (fun r => (r.id, r.name))
  | name :: _ =>
    ((indexScan db.rows).filter (fun r => decide (r.name = name))).map (fun r => (r.id, r.name))

/-- The call `QueryRow("SELECT id, name FROM students WHERE id = ?", id)` followed by
`Scan`: the first matching row, or `sql.ErrNoRows`. -/
def queryRowByID (db : DB) (id : Int) : Except Error (Int × String) :=
  match db.rows.find? (fun r => decide (r.id = id)) with
  | none => .error .ErrNoRows
  | some r => .ok (r.id, r.name)

/-! ## repositories/student_repository.go -/

/-- Go: `(*StudentRepository).GetAllStudents`. The loop over `rows.Next()` scans `id`
and `name` into a zero-valued `Student` and appends it. -/
def GetAllStudents (db : DB) (name : String) : Except Error (List Student) :=
  let args : List String := if name ≠ "" then [name] else []
  let rows := querySelect db args
  .ok (rows.foldl (fun students r => students ++ [{ ID := r.1, Name := r.2, Grade := 0 }]) [])

/-- Go: `(*StudentRepository).GetStudentByID`. -/
def GetStudentByID (db : DB) (id : Int) : Except Error Student :=
  match queryRowByID db id with
  | .error e => if e = .ErrNoRows then .error .ErrStudentNotFound else .error e
  | .ok r => .ok { ID := r.1, Name := r.2, Grade := 0 }

/-- Go: `(*StudentRepository).CreateStudent`. On success the student's `ID` field is
overwritten with `LastInsertId`; the driver's error is returned as it comes. -/
def CreateStudent (db : DB) (student : Student) : DB × Except Error Student :=
  match execInsert db student.Name with
  | .error err => (db, .error err)
  | .ok (db', id) => (db', .ok { student with ID := id })

/-- Go: `(*StudentRepository).UpdateStudent`. -/
def UpdateStudent (db : DB) (student : Student) : DB × Except Error Unit :=
  match execUpdate db student.Name student.ID with
  | .error err => (db, .error err)
  | .ok (db', rowsAffected) =>
    if rowsAffected = 0 then (db', .error .ErrStudentNotFound) else (db', .ok ())

/-- Go: `(*StudentRepository).DeleteStudent`. -/
def DeleteStudent (db : DB) (id : Int) : DB × Except Error Unit :=
  match execDelete db id with
  | (db', rowsAffected) =>
    if rowsAffected = 0 then (db', .error .ErrStudentNotFound) else (db', .ok ())

/-! ## main.go: request parsing -/

/-- Value of a run of ASCII decimal digits, `none` when a character is not a digit. -/
def digitsValue (cs : List Char) : Option Nat :=
  cs.foldl (fun acc c =>
    match acc with
    | none => none
    | some n => if '0' ≤ c ∧ c ≤ '9' then some (n * 10 + (c.toNat - '0'.toNat)) else none)
    (some 0)

/-- Go: `strconv.Atoi` for a 64-bit `int`: an optional sign, at least one decimal
digit and nothing else, the value within the range of `int`. -/
def Atoi (s : String) : Option Int :=
  let cs := s.toList
  let neg := cs.head? = some '-'
  let ds := if cs.head? = some '-' ∨ cs.head? = some '+' then cs.tail else cs
  if ds = [] then none
  else
    match digitsValue ds with
    | none => none
    | some n =>
      let v : Int := if neg then -(n : Int) else (n : Int)
      if -9223372036854775808 ≤ v ∧ v ≤ 9223372036854775807 then some v else none

/-- What the JSON decoder makes of a request body: an error, or the field values of a
`Student` (a field absent from the JSON keeps its zero value). -/
inductive ReqBody where
  | malformed (msg : String)
  | decoded (student : Student)
deriving DecidableEq, Repr

/-- Go: `c.ShouldBindJSON(&student)`: decoding, then the `binding` tags of the struct;
`binding:"required"` on `Name` rejects the zero value. The `validate` tag on `Grade`
is not a binding tag and is not checked. -/
def ShouldBindJSON (body : ReqBody) : Except String Student :=
  match body with
  | .malformed msg => .error msg
  | .decoded student =>
    if student.Name = "" then
      .error "Key: 'Student.Name' Error:Field validation for 'Name' failed on the 'required' tag"
    else .ok student

/-! ## main.go: responses and handlers -/

/-- The JSON body written by a handler. -/
inductive Body where
  | student (s : Student)
  | students (l : List Student)
  | error (msg : String)
  | empty
deriving DecidableEq, Repr

/-- Status code and body of an HTTP response. -/
structure Response where
  status : Nat
  body : Body
deriving DecidableEq, Repr

abbrev StatusOK : Nat := 200
abbrev StatusCreated : Nat := 201
abbrev StatusNoContent : Nat := 204
abbrev StatusBadRequest : Nat := 400
abbrev StatusNotFound : Nat := 404
abbrev StatusConflict : Nat := 409
abbrev StatusInternalServerError : Nat := 500

/-- Go: the handler `setupRoutes` registers for `GET /students`; `name` is
`c.Query("name")`. -/
def handleList (db : DB) (name : String) : DB × Response :=
  match GetAllStudents db name with
  | .error err => (db, ⟨StatusInternalServerError, .error err.msg⟩)
  | .ok students => (db, ⟨StatusOK, .students students⟩)

/-- Go: the handler `setupRoutes` registers for `GET /students/:id`; `param` is
`c.Param("id")`. -/
def handleGet (db : DB) (param : String) : DB × Response :=
  match Atoi param with
  | none => (db, ⟨StatusBadRequest, .error "invalid student id"⟩)
  | some id =>
    match GetStudentByID db id with
    | .error err =>
      if err = .ErrStudentNotFound then (db, ⟨StatusNotFound, .error "student not found"⟩)
      else (db, ⟨StatusInternalServerError, .error err.msg⟩)
    | .ok student => (db, ⟨StatusOK, .student student⟩)

/-- Go: the handler `setupRoutes` registers for `POST /students`. -/
def handleCreate (db : DB) (body : ReqBody) : DB × Response :=
  match ShouldBindJSON body with
  | .error msg => (db, ⟨StatusBadRequest, .error msg⟩)
  | .ok student =>
    match CreateStudent db student with
    | (db', .error err) =>
      if err = .ErrDuplicateName then
        (db', ⟨StatusConflict, .error "student with this name already exists"⟩)
      else (db', ⟨StatusInternalServerError, .error err.msg⟩)
    | (db', .ok student') => (db', ⟨StatusCreated, .student student'⟩)

/-- Go: the handler `setupRoutes` registers for `PUT /students/:id`; the bound student
gets the id of the path before the repository is called. -/
def handleUpdate (db : DB) (param : String) (body : ReqBody) : DB × Response :=
  match Atoi param with
  | none => (db, ⟨StatusBadRequest, .error "invalid student id"⟩)
  | some id =>
    match ShouldBindJSON body with
    | .error msg => (db, ⟨StatusBadRequest, .error msg⟩)
    | .ok student =>
      let student := { student with ID := id }
      match UpdateStudent db student with
      | (db', .error err) =>
        if err = .ErrStudentNotFound then (db', ⟨StatusNotFound, .error "student not found"⟩)
        else (db', ⟨StatusInternalServerError, .error err.msg⟩)
      | (db', .ok _) => (db', ⟨StatusOK, .student student⟩)

/-- Go: the handler `setupRoutes` registers for `DELETE /students/:id`. -/
def handleDelete (db : DB) (param : String) : DB × Response :=
  match Atoi param with
  | none => (db, ⟨StatusBadRequest, .error "invalid student id"⟩)
  | some id =>
    match DeleteStudent db id with
    | (db', .error err) =>
      if err = .ErrStudentNotFound then (db', ⟨StatusNotFound, .error "student not found"⟩)
      else (db', ⟨StatusInternalServerError, .error err.msg⟩)
    | (db', .ok _) => (db', ⟨StatusNoContent, .empty⟩)

/-- A request to one of the five routes registered by `setupRoutes`. -/
inductive Request where
  | list (name : String)
  | get (param : String)
  | create (body : ReqBody)
  | update (param : String) (body : ReqBody)
  | delete (param : String)
deriving DecidableEq, Repr

/-- Go: `setupRoutes`, as the dispatch of a request to its handler. -/
def setupRoutes (db : DB) : Request → DB × Response
  | .list name => handleList db name
  | .get param => handleGet db param
  | .create body => handleCreate db body
  | .update param body => handleUpdate db param body
  | .delete param => handleDelete db param

/-- Serve a sequence of requests one after the other: the final database and each
request paired with its response, in order. -/
def serve (db : DB) : List Request → DB × List (Request × Response)
  | [] => (db, [])
  | req :: rest =>
    let step := setupRoutes db req
    let out := serve step.1 rest
    (out.1, (req, step.2) :: out.2)

/-- A table holding Ann (id 1) and Bob (id 2), as left by two creates on the empty table. -/
def sampleDB : DB :=
  { rows := [{ id := 1, name := "Ann", age := none, grade := none },
             { id := 2, name := "Bob", age := none, grade := none }],
    seq := 2 }

/-- A table holding Bob (id 1) and Ann (id 2), as left by creating Bob and then Ann on
the empty table. -/
def bobThenAnn : DB :=
  { rows := [{ id := 1, name := "Bob", age := none, grade := none },
             { id := 2, name := "Ann", age := none, grade := none }],
    seq := 2 }

/-- The constraints `PRIMARY KEY` and `UNIQUE` of the table: no two rows share an id and
no two rows share a name. -/
def DB.Constraints (db : DB) : Prop :=
  (db.rows.map Row.id).Nodup ∧ (db.rows.map Row.name).Nodup

/-! ## The storage engine: rowids -/

theorem le_foldl_max (rows : List Row) (m : Int) :
    m ≤ rows.foldl (fun m r => max m r.id) m := by
  induction rows generalizing m with
  | nil => simp
  | cons r rs ih =>
    simp only [List.foldl_cons]
    exact le_trans (le_max_left _ _) (ih _)

theorem id_le_foldl_max (rows : List Row) (m : Int) :
    ∀ r ∈ rows, r.id ≤ rows.foldl (fun m r => max m r.id) m := by
  induction rows generalizing m with
  | nil => simp
  | cons r rs ih =>
    intro x hx
    simp only [List.foldl_cons]
    rcases List.mem_cons.mp hx with h | h
    · subst h
      exact le_trans (le_max_right _ _) (le_foldl_max rs _)
    · exact ih _ x h

theorem maxRowid_nonneg (rows : List Row) : 0 ≤ maxRowid rows :=
  le_foldl_max rows 0

theorem id_le_maxRowid (rows : List Row) : ∀ r ∈ rows, r.id ≤ maxRowid rows :=
  id_le_foldl_max rows 0

theorem nextRowid_pos (db : DB) : 0 < nextRowid db := by
  have h1 := maxRowid_nonneg db.rows
  have h2 := le_max_right db.seq (maxRowid db.rows)
  unfold nextRowid
  omega

theorem seq_lt_nextRowid (db : DB) : db.seq < nextRowid db := by
  have h2 := le_max_left db.seq (maxRowid db.rows)
  unfold nextRowid
  omega

theorem id_lt_nextRowid (db : DB) : ∀ r ∈ db.rows, r.id < nextRowid db := by
  intro r hr
  have h1 := id_le_maxRowid db.rows r hr
  have h2 := le_max_right db.seq (maxRowid db.rows)
  unfold nextRowid
  omega

/-! ## The storage engine: the index on `name` -/

theorem indexLE_total (a b : Row) : indexLE a b ∨ indexLE b a := by
  unfold indexLE
  simp only [← String.lt_iff_toList_lt]
  rcases lt_trichotomy a.name b.name with h | h | h
  · exact Or.inl (Or.inl h)
  · rcases le_total a.id b.id with hi | hi
    · exact Or.inl (Or.inr ⟨h, hi⟩)
    · exact Or.inr (Or.inr ⟨h.symm, hi⟩)
  · exact Or.inr (Or.inl h)

theorem indexLE_trans (a b c : Row) (hab : indexLE a b) (hbc : indexLE b c) :
    indexLE a c := by
  unfold indexLE at *
  simp only [← String.lt_iff_toList_lt] at *
  rcases hab with h1 | ⟨h1, i1⟩
  · rcases hbc with h2 | ⟨h2, _⟩
    · exact Or.inl (lt_trans h1 h2)
    · exact Or.inl (h2 ▸ h1)
  · rcases hbc with h2 | ⟨h2, i2⟩
    · exact Or.inl (h1 ▸ h2)
    · exact Or.inr ⟨h1.trans h2, le_trans i1 i2⟩

theorem indexLE_name_le (a b : Row) (h : indexLE a b) : a.name ≤ b.name := by
  rcases h with h | ⟨h, _⟩
  · exact le_of_lt (String.lt_iff_toList_lt.mpr h)
  · exact le_of_eq h

theorem indexScan_perm (rows : List Row) : (indexScan rows).Perm rows :=
  List.perm_insertionSort indexLE rows

theorem indexScan_sorted (rows : List Row) : (indexScan rows).Sorted indexLE := by
  haveI : IsTotal Row indexLE := ⟨indexLE_total⟩
  haveI : IsTrans Row indexLE := ⟨indexLE_trans⟩
  exact List.sorted_insertionSort indexLE rows

theorem mem_indexScan (rows : List Row) (r : Row) : r ∈ indexScan rows ↔ r ∈ rows :=
  (indexScan_perm rows).mem_iff

/-! ## The repository: reads -/

theorem foldl_append_singleton {α β : Type} (f : α → β) (l : List α) (init : List β) :
    l.foldl (fun acc a => acc ++ [f a]) init = init ++ l.map f := by
  induction l generalizing init with
  | nil => simp
  | cons a as ih => simp [ih]

theorem GetAllStudents_eq (db : DB) (name : String) :
    GetAllStudents db name = .ok
      ((if name = "" then indexScan db.rows
        else (indexScan db.rows).filter (fun r => decide (r.name = name))).map
        (fun r => { ID := r.id, Name := r.name, Grade := 0 })) := by
  unfold GetAllStudents
  simp only [foldl_append_singleton (fun r : Int × String => ({ ID := r.1, Name := r.2, Grade := 0 } : Student))]
  by_cases h : name = ""
  · simp [h, querySelect]
  · simp [h, querySelect]

theorem GetStudentByID_of_not_mem (db : DB) (id : Int) (h : ∀ r ∈ db.rows, r.id ≠ id) :
    GetStudentByID db id = .error .ErrStudentNotFound := by
  have hf : db.rows.find? (fun r => decide (r.id = id)) = none := by
    rw [List.find?_eq_none]
    intro r hr
    simpa using h r hr
  simp [GetStudentByID, queryRowByID, hf]

theorem GetStudentByID_of_mem (db : DB) (id : Int) (h : ∃ r ∈ db.rows, r.id = id) :
    ∃ r ∈ db.rows, r.id = id ∧
      GetStudentByID db id = .ok { ID := id, Name := r.name, Grade := 0 } := by
  cases hf : db.rows.find? (fun r => decide (r.id = id)) with
  | none =>
    rw [List.find?_eq_none] at hf
    obtain ⟨r, hr, hid⟩ := h
    exact absurd hid (by simpa using hf r hr)
  | some r =>
    have hid : r.id = id := by simpa using List.find?_some hf
    exact ⟨r, List.mem_of_find?_eq_some hf, hid, by simp [GetStudentByID, queryRowByID, hf, hid]⟩

/-! ## The handlers: create -/

theorem execInsert_dup (db : DB) (name : String) (h : ∃ r ∈ db.rows, r.name = name) :
    execInsert db name = .error uniqueViolation := by
  have hany : db.rows.any (fun r => decide (r.name = name)) = true := by
    simpa [List.any_eq_true] using h
  simp [execInsert, hany]

theorem execInsert_fresh (db : DB) (name : String) (h : ∀ r ∈ db.rows, r.name ≠ name) :
    execInsert db name = .ok
      ({ rows := db.rows ++ [{ id := nextRowid db, name := name, age := none, grade := none }],
         seq := nextRowid db }, nextRowid db) := by
  have hany : db.rows.any (fun r => decide (r.name = name)) = false := by
    simpa [List.any_eq_false] using h
  simp [execInsert, hany]

theorem handleCreate_invalid (db : DB) (body : ReqBody) (msg : String)
    (h : ShouldBindJSON body = .error msg) :
    handleCreate db body = (db, ⟨400, .error msg⟩) := by
  simp [handleCreate, h]

theorem handleCreate_dup (db : DB) (student : Student) (hname : student.Name ≠ "")
    (h : ∃ r ∈ db.rows, r.name = student.Name) :
    handleCreate db (.decoded student) =
      (db, ⟨500, .error "UNIQUE constraint failed: students.name"⟩) := by
  simp [handleCreate, ShouldBindJSON, hname, CreateStudent, execInsert_dup db _ h,
    uniqueViolation, Error.msg]

theorem handleCreate_fresh (db : DB) (student : Student) (hname : student.Name ≠ "")
    (h : ∀ r ∈ db.rows, r.name ≠ student.Name) :
    handleCreate db (.decoded student) =
      ({ rows := db.rows ++
           [{ id := nextRowid db, name := student.Name, age := none, grade := none }],
         seq := nextRowid db },
       ⟨201, .student { student with ID := nextRowid db }⟩) := by
  simp [handleCreate, ShouldBindJSON, hname, CreateStudent, execInsert_fresh db _ h]

theorem handleCreate_created (db db' : DB) (body : ReqBody) (created : Student)
    (h : handleCreate db body = (db', ⟨201, .student created⟩)) :
    ∃ student, body = .decoded student ∧ student.Name ≠ "" ∧
      (∀ r ∈ db.rows, r.name ≠ student.Name) ∧
      db' = { rows := db.rows ++
                [{ id := nextRowid db, name := student.Name, age := none, grade := none }],
              seq := nextRowid db } ∧
      created = { student with ID := nextRowid db } := by
  cases body with
  | malformed msg => simp [handleCreate, ShouldBindJSON] at h
  | decoded student =>
    by_cases hname : student.Name = ""
    · simp [handleCreate, ShouldBindJSON, hname] at h
    · by_cases hdup : ∃ r ∈ db.rows, r.name = student.Name
      · rw [handleCreate_dup db student hname hdup] at h
        simp at h
      · have hfresh : ∀ r ∈ db.rows, r.name ≠ student.Name := by
          intro r hr hn
          exact hdup ⟨r, hr, hn⟩
        rw [handleCreate_fresh db student hname hfresh] at h
        simp only [Prod.mk.injEq, Response.mk.injEq, Body.student.injEq, true_and] at h
        exact ⟨student, rfl, hname, hfresh, h.1.symm, h.2.symm⟩

/-! ## The handlers: update -/

theorem countP_id_eq_zero (rows : List Row) (id : Int) :
    rows.countP (fun r => decide (r.id = id)) = 0 ↔ ∀ r ∈ rows, r.id ≠ id := by
  simp [List.countP_eq_zero]

theorem map_setName_of_not_mem (rows : List Row) (name : String) (id : Int)
    (h : ∀ r ∈ rows, r.id ≠ id) :
    rows.map (fun r => if r.id = id then { r with name := name } else r) = rows := by
  induction rows with
  | nil => rfl
  | cons r rs ih =>
    have hr : r.id ≠ id := h r (List.mem_cons_self _ _)
    have hrs : ∀ x ∈ rs, x.id ≠ id := fun x hx => h x (List.mem_cons_of_mem _ hx)
    simp [hr, ih hrs]

theorem UpdateStudent_missing (db : DB) (student : Student)
    (h : ∀ r ∈ db.rows, r.id ≠ student.ID) :
    UpdateStudent db student = (db, .error .ErrStudentNotFound) := by
  have hc := (countP_id_eq_zero db.rows student.ID).mpr h
  simp [UpdateStudent, execUpdate, hc, map_setName_of_not_mem db.rows _ _ h]

theorem UpdateStudent_conflict (db : DB) (student : Student)
    (hid : ∃ r ∈ db.rows, r.id = student.ID)
    (h : ∃ r ∈ db.rows, r.id ≠ student.ID ∧ r.name = student.Name) :
    UpdateStudent db student = (db, .error uniqueViolation) := by
  have hc : db.rows.countP (fun r => decide (r.id = student.ID)) ≠ 0 := by
    rw [Ne, countP_id_eq_zero]
    intro hall
    obtain ⟨r, hr, hrid⟩ := hid
    exact hall r hr hrid
  have hany : db.rows.any (fun r => decide (r.id ≠ student.ID ∧ r.name = student.Name)) = true := by
    rw [List.any_eq_true]
    obtain ⟨r, hr, h1, h2⟩ := h
    exact ⟨r, hr, by simp [h1, h2]⟩
  unfold UpdateStudent execUpdate
  rw [if_pos ⟨hc, hany⟩]

theorem UpdateStudent_ok (db : DB) (student : Student)
    (hid : ∃ r ∈ db.rows, r.id = student.ID)
    (h : ∀ r ∈ db.rows, r.name = student.Name → r.id = student.ID) :
    UpdateStudent db student =
      ({ db with rows := (db.rows.map
          (fun r => if r.id = student.ID then { r with name := student.Name } else r)) },
       .ok ()) := by
  have hc : db.rows.countP (fun r => decide (r.id = student.ID)) ≠ 0 := by
    rw [Ne, countP_id_eq_zero]
    intro hall
    obtain ⟨r, hr, hrid⟩ := hid
    exact hall r hr hrid
  have hany : db.rows.any (fun r => decide (r.id ≠ student.ID ∧ r.name = student.Name)) = false := by
    rw [List.any_eq_false]
    intro r hr
    simp only [decide_eq_true_eq, not_and]
    intro h1 h2
    exact h1 (h r hr h2)
  unfold UpdateStudent execUpdate
  rw [if_neg (fun hboth => by rw [hany] at hboth; exact Bool.false_ne_true hboth.2)]
  simp [hc]

theorem handleUpdate_missing (db : DB) (param : String) (id : Int) (student : Student)
    (hp : Atoi param = some id) (hname : student.Name ≠ "")
    (h : ∀ r ∈ db.rows, r.id ≠ id) :
    handleUpdate db param (.decoded student) = (db, ⟨404, .error "student not found"⟩) := by
  have hu := UpdateStudent_missing db { student with ID := id } h
  simp [handleUpdate, hp, ShouldBindJSON, hname, hu]

theorem handleUpdate_conflict (db : DB) (param : String) (id : Int) (student : Student)
    (hp : Atoi param = some id) (hname : student.Name ≠ "")
    (hid : ∃ r ∈ db.rows, r.id = id)
    (h : ∃ r ∈ db.rows, r.id ≠ id ∧ r.name = student.Name) :
    handleUpdate db param (.decoded student) =
      (db, ⟨500, .error "UNIQUE constraint failed: students.name"⟩) := by
  have hu := UpdateStudent_conflict db { student with ID := id } hid h
  simp [handleUpdate, hp, ShouldBindJSON, hname, hu, uniqueViolation, Error.msg]

theorem handleUpdate_ok (db : DB) (param : String) (id : Int) (student : Student)
    (hp : Atoi param = some id) (hname : student.Name ≠ "")
    (hid : ∃ r ∈ db.rows, r.id = id)
    (h : ∀ r ∈ db.rows, r.name = student.Name → r.id = id) :
    handleUpdate db param (.decoded student) =
      ({ db with rows := (db.rows.map
          (fun r => if r.id = id then { r with name := student.Name } else r)) },
       ⟨200, .student { student with ID := id }⟩) := by
  have hu := UpdateStudent_ok db { student with ID := id } hid h
  simp [handleUpdate, hp, ShouldBindJSON, hname, hu]

/-! ## The handlers: delete -/

theorem filter_id_ne_of_not_mem (rows : List Row) (id : Int) (h : ∀ r ∈ rows, r.id ≠ id) :
    rows.filter (fun r => decide (r.id ≠ id)) = rows := by
  rw [List.filter_eq_self]
  intro r hr
  simpa using h r hr

theorem DeleteStudent_missing (db : DB) (id : Int) (h : ∀ r ∈ db.rows, r.id ≠ id) :
    DeleteStudent db id = (db, .error .ErrStudentNotFound) := by
  have hc := (countP_id_eq_zero db.rows id).mpr h
  unfold DeleteStudent execDelete
  rw [hc, filter_id_ne_of_not_mem db.rows id h]
  rfl

theorem DeleteStudent_ok (db : DB) (id : Int) (h : ∃ r ∈ db.rows, r.id = id) :
    DeleteStudent db id =
      ({ db with rows := db.rows.filter (fun r => decide (r.id ≠ id)) }, .ok ()) := by
  have hc : db.rows.countP (fun r => decide (r.id = id)) ≠ 0 := by
    rw [Ne, countP_id_eq_zero]
    intro hall
    obtain ⟨r, hr, hrid⟩ := h
    exact hall r hr hrid
  unfold DeleteStudent execDelete
  simp only [hc, if_false]

theorem handleDelete_missing (db : DB) (param : String) (id : Int)
    (hp : Atoi param = some id) (h : ∀ r ∈ db.rows, r.id ≠ id) :
    handleDelete db param = (db, ⟨404, .error "student not found"⟩) := by
  simp [handleDelete, hp, DeleteStudent_missing db id h]

theorem handleDelete_ok (db : DB) (param : String) (id : Int)
    (hp : Atoi param = some id) (h : ∃ r ∈ db.rows, r.id = id) :
    handleDelete db param =
      ({ db with rows := db.rows.filter (fun r => decide (r.id ≠ id)) }, ⟨204, .empty⟩) := by
  simp [handleDelete, hp, DeleteStudent_ok db id h]

/-! ## The handlers: get -/

theorem handleGet_missing (db : DB) (param : String) (id : Int)
    (hp : Atoi param = some id) (h : ∀ r ∈ db.rows, r.id ≠ id) :
    handleGet db param = (db, ⟨404, .error "student not found"⟩) := by
  simp [handleGet, hp, GetStudentByID_of_not_mem db id h]

theorem handleGet_found (db : DB) (param : String) (id : Int)
    (hp : Atoi param = some id) (h : ∃ r ∈ db.rows, r.id = id) :
    ∃ r ∈ db.rows, r.id = id ∧
      handleGet db param = (db, ⟨200, .student { ID := id, Name := r.name, Grade := 0 }⟩) := by
  obtain ⟨r, hr, hid, hget⟩ := GetStudentByID_of_mem db id h
  exact ⟨r, hr, hid, by simp [handleGet, hp, hget]⟩

/-! ## What a request can do to the database -/

theorem handleList_db (db : DB) (name : String) : (handleList db name).1 = db := by
  simp [handleList, GetAllStudents_eq]

theorem handleGet_db (db : DB) (param : String) : (handleGet db param).1 = db := by
  cases hp : Atoi param with
  | none => simp [handleGet, hp]
  | some id =>
    by_cases hid : ∃ r ∈ db.rows, r.id = id
    · obtain ⟨r, -, -, h⟩ := handleGet_found db param id hp hid
      rw [h]
    · have hmiss : ∀ r ∈ db.rows, r.id ≠ id := by
        intro r hr he
        exact hid ⟨r, hr, he⟩
      rw [handleGet_missing db param id hp hmiss]

theorem handleCreate_db (db : DB) (body : ReqBody) :
    (handleCreate db body).1 = db ∨
    ∃ student, body = .decoded student ∧ student.Name ≠ "" ∧
      (∀ r ∈ db.rows, r.name ≠ student.Name) ∧
      handleCreate db body =
        ({ rows := db.rows ++
             [{ id := nextRowid db, name := student.Name, age := none, grade := none }],
           seq := nextRowid db },
         ⟨201, .student { student with ID := nextRowid db }⟩) := by
  cases body with
  | malformed msg => left; simp [handleCreate, ShouldBindJSON]
  | decoded student =>
    by_cases hname : student.Name = ""
    · left; simp [handleCreate, ShouldBindJSON, hname]
    · by_cases hdup : ∃ r ∈ db.rows, r.name = student.Name
      · left; rw [handleCreate_dup db student hname hdup]
      · have hfresh : ∀ r ∈ db.rows, r.name ≠ student.Name := by
          intro r hr hn
          exact hdup ⟨r, hr, hn⟩
        right
        exact ⟨student, rfl, hname, hfresh, handleCreate_fresh db student hname hfresh⟩

theorem handleUpdate_db (db : DB) (param : String) (body : ReqBody) :
    (handleUpdate db param body).1 = db ∨
    ∃ id student, Atoi param = some id ∧ body = .decoded student ∧ student.Name ≠ "" ∧
      (∃ r ∈ db.rows, r.id = id) ∧ (∀ r ∈ db.rows, r.name = student.Name → r.id = id) ∧
      handleUpdate db param body =
        ({ db with rows := (db.rows.map
            (fun r => if r.id = id then { r with name := student.Name } else r)) },
         ⟨200, .student { student with ID := id }⟩) := by
  cases hp : Atoi param with
  | none => left; simp [handleUpdate, hp]
  | some id =>
    cases body with
    | malformed msg => left; simp [handleUpdate, hp, ShouldBindJSON]
    | decoded student =>
      by_cases hname : student.Name = ""
      · left; simp [handleUpdate, hp, ShouldBindJSON, hname]
      · by_cases hid : ∃ r ∈ db.rows, r.id = id
        · by_cases hc : ∃ r ∈ db.rows, r.id ≠ id ∧ r.name = student.Name
          · left; rw [handleUpdate_conflict db param id student hp hname hid hc]
          · have hfree : ∀ r ∈ db.rows, r.name = student.Name → r.id = id := by
              intro r hr hn
              by_contra hne
              exact hc ⟨r, hr, hne, hn⟩
            right
            exact ⟨id, student, rfl, rfl, hname, hid, hfree,
              handleUpdate_ok db param id student hp hname hid hfree⟩
        · have hmiss : ∀ r ∈ db.rows, r.id ≠ id := by
            intro r hr he
            exact hid ⟨r, hr, he⟩
          left; rw [handleUpdate_missing db param id student hp hname hmiss]

theorem handleDelete_db (db : DB) (param : String) :
    (handleDelete db param).1 = db ∨
    ∃ id, (handleDelete db param).1 =
      { db with rows := db.rows.filter (fun r => decide (r.id ≠ id)) } := by
  cases hp : Atoi param with
  | none => left; simp [handleDelete, hp]
  | some id =>
    by_cases hid : ∃ r ∈ db.rows, r.id = id
    · right
      exact ⟨id, by rw [handleDelete_ok db param id hp hid]⟩
    · have hmiss : ∀ r ∈ db.rows, r.id ≠ id := by
        intro r hr he
        exact hid ⟨r, hr, he⟩
      left; rw [handleDelete_missing db param id hp hmiss]

theorem setupRoutes_seq_le (db : DB) (req : Request) :
    db.seq ≤ (setupRoutes db req).1.seq := by
  cases req with
  | list name => simp [setupRoutes, handleList_db]
  | get param => simp [setupRoutes, handleGet_db]
  | create body =>
    rcases handleCreate_db db body with h | ⟨student, -, -, -, h⟩
    · simp [setupRoutes, h]
    · simp only [setupRoutes, h]
      exact le_of_lt (seq_lt_nextRowid db)
  | update param body =>
    rcases handleUpdate_db db param body with h | ⟨id, student, -, -, -, -, -, h⟩
    · simp [setupRoutes, h]
    · simp [setupRoutes, h]
  | delete param =>
    rcases handleDelete_db db param with h | ⟨id, h⟩
    · simp [setupRoutes, h]
    · simp [setupRoutes, h]

theorem serve_seq_le (reqs : List Request) (db : DB) :
    db.seq ≤ (serve db reqs).1.seq := by
  induction reqs generalizing db with
  | nil => simp [serve]
  | cons req rest ih =>
    simp only [serve]
    exact le_trans (setupRoutes_seq_le db req) (ih _)

theorem serve_created_le_seq (reqs : List Request) (db : DB) (body : ReqBody)
    (created : Student)
    (h : (Request.create body, (⟨201, .student created⟩ : Response)) ∈ (serve db reqs).2) :
    created.ID ≤ (serve db reqs).1.seq := by
  induction reqs generalizing db with
  | nil => simp [serve] at h
  | cons req rest ih =>
    simp only [serve, List.mem_cons] at h
    simp only [serve]
    rcases h with h | h
    · have hreq : req = Request.create body := (congrArg Prod.fst h).symm
      have hresp : (setupRoutes db req).2 = ⟨201, .student created⟩ := (congrArg Prod.snd h).symm
      subst hreq
      have hpost : handleCreate db body = ((handleCreate db body).1, ⟨201, .student created⟩) := by
        rw [← hresp]; rfl
      obtain ⟨student, -, -, -, hdb, hcr⟩ := handleCreate_created db _ body created hpost
      have hseq : (setupRoutes db (Request.create body)).1.seq = created.ID := by
        show (handleCreate db body).1.seq = created.ID
        rw [hdb, hcr]
      rw [← hseq]
      exact serve_seq_le rest _
    · exact ih _ h

/-! ## The table constraints hold in every reachable database -/

theorem constraints_empty : DB.empty.Constraints := by
  simp [DB.Constraints, DB.empty]

theorem constraints_insert (db : DB) (name : String) (hc : db.Constraints)
    (h : ∀ r ∈ db.rows, r.name ≠ name) :
    DB.Constraints
      { rows := db.rows ++ [{ id := nextRowid db, name := name, age := none, grade := none }],
        seq := nextRowid db } := by
  obtain ⟨hids, hnames⟩ := hc
  constructor
  · simp only [List.map_append, List.map_cons, List.map_nil]
    rw [List.nodup_append]
    refine ⟨hids, List.nodup_singleton _, ?_⟩
    intro x hx hx'
    obtain ⟨r, hr, rfl⟩ := List.mem_map.mp hx
    have hlt := id_lt_nextRowid db r hr
    have heq : r.id = nextRowid db := by simpa using hx'
    omega
  · simp only [List.map_append, List.map_cons, List.map_nil]
    rw [List.nodup_append]
    refine ⟨hnames, List.nodup_singleton _, ?_⟩
    intro x hx hx'
    obtain ⟨r, hr, rfl⟩ := List.mem_map.mp hx
    have heq : r.name = name := by simpa using hx'
    exact h r hr heq

theorem map_id_setName (rows : List Row) (name : String) (id : Int) :
    (rows.map (fun r => if r.id = id then { r with name := name } else r)).map Row.id =
      rows.map Row.id := by
  induction rows with
  | nil => rfl
  | cons r rs ih =>
    by_cases hr : r.id = id
    · simpa [hr] using ih
    · simpa [hr] using ih

theorem nodup_names_setName (rows : List Row) (name : String) (id : Int)
    (hids : (rows.map Row.id).Nodup) (hnames : (rows.map Row.name).Nodup)
    (h : ∀ r ∈ rows, r.name = name → r.id = id) :
    ((rows.map (fun r => if r.id = id then { r with name := name } else r)).map
      Row.name).Nodup := by
  induction rows with
  | nil => simp
  | cons r rs ih =>
    simp only [List.map_cons, List.nodup_cons] at hids hnames
    have hrs : ∀ x ∈ rs, x.name = name → x.id = id :=
      fun x hx => h x (List.mem_cons_of_mem _ hx)
    by_cases hr : r.id = id
    · have hmiss : ∀ x ∈ rs, x.id ≠ id := by
        intro x hx hxid
        exact hids.1 (List.mem_map.mpr ⟨x, hx, by rw [hxid, hr]⟩)
      simp only [List.map_cons, hr, if_true, map_setName_of_not_mem rs name id hmiss,
        List.nodup_cons]
      refine ⟨?_, hnames.2⟩
      intro hmem
      obtain ⟨x, hx, hxn⟩ := List.mem_map.mp hmem
      exact hmiss x hx (hrs x hx hxn)
    · simp only [List.map_cons, hr, if_false, List.nodup_cons]
      refine ⟨?_, ih hids.2 hnames.2 hrs⟩
      intro hmem
      obtain ⟨y, hy, hyn⟩ := List.mem_map.mp hmem
      obtain ⟨x, hx, rfl⟩ := List.mem_map.mp hy
      by_cases hx' : x.id = id
      · simp only [hx', if_true] at hyn
        exact hr (h r (List.mem_cons_self _ _) hyn.symm)
      · simp only [hx', if_false] at hyn
        exact hnames.1 (List.mem_map.mpr ⟨x, hx, hyn⟩)

theorem constraints_filter (db : DB) (p : Row → Bool) (hc : db.Constraints) :
    DB.Constraints { db with rows := db.rows.filter p } := by
  obtain ⟨hids, hnames⟩ := hc
  exact ⟨hids.sublist (List.Sublist.map _ (List.filter_sublist _)),
    hnames.sublist (List.Sublist.map _ (List.filter_sublist _))⟩

theorem setupRoutes_constraints (db : DB) (req : Request) (hc : db.Constraints) :
    (setupRoutes db req).1.Constraints := by
  cases req with
  | list name => simpa [setupRoutes, handleList_db] using hc
  | get param => simpa [setupRoutes, handleGet_db] using hc
  | create body =>
    rcases handleCreate_db db body with h | ⟨student, -, -, hfresh, h⟩
    · simpa [setupRoutes, h] using hc
    · simp only [setupRoutes, h]
      exact constraints_insert db student.Name hc hfresh
  | update param body =>
    rcases handleUpdate_db db param body with h | ⟨id, student, -, -, -, -, hfree, h⟩
    · simpa [setupRoutes, h] using hc
    · simp only [setupRoutes, h]
      exact ⟨by
          show ((db.rows.map (fun r => if r.id = id then { r with name := student.Name }
            else r)).map Row.id).Nodup
          rw [map_id_setName]
          exact hc.1,
        nodup_names_setName db.rows student.Name id hc.1 hc.2 hfree⟩
  | delete param =>
    rcases handleDelete_db db param with h | ⟨id, h⟩
    · simpa [setupRoutes, h] using hc
    · simp only [setupRoutes, h]
      exact constraints_filter db _ hc

theorem serve_constraints (reqs : List Request) (db : DB) (hc : db.Constraints) :
    (serve db reqs).1.Constraints := by
  induction reqs generalizing db with
  | nil => simpa [serve] using hc
  | cons req rest ih =>
    simp only [serve]
    exact ih _ (setupRoutes_constraints db req hc)

/-! ## Reading back what a write stored -/

theorem handleGet_after_insert (db : DB) (name : String) (param : String)
    (hp : Atoi param = some (nextRowid db)) :
    handleGet
      { rows := db.rows ++ [{ id := nextRowid db, name := name, age := none, grade := none }],
        seq := nextRowid db } param =
      ({ rows := db.rows ++ [{ id := nextRowid db, name := name, age := none, grade := none }],
         seq := nextRowid db },
       ⟨200, .student { ID := nextRowid db, Name := name, Grade := 0 }⟩) := by
  obtain ⟨r, hr, hrid, hget⟩ := handleGet_found
    { rows := db.rows ++ [{ id := nextRowid db, name := name, age := none, grade := none }],
      seq := nextRowid db } param (nextRowid db) hp
    ⟨_, List.mem_append_right _ (List.mem_singleton_self _), rfl⟩
  have hname : r.name = name := by
    rcases List.mem_append.mp hr with hold | hnew
    · have hlt := id_lt_nextRowid db r hold
      omega
    · rw [List.mem_singleton.mp hnew]
  rw [hget, hname]

theorem handleGet_after_update (db : DB) (name : String) (param : String) (id : Int)
    (hp : Atoi param = some id) (hid : ∃ r ∈ db.rows, r.id = id) :
    handleGet
      { db with rows := (db.rows.map
          (fun r => if r.id = id then { r with name := name } else r)) } param =
      ({ db with rows := (db.rows.map
          (fun r => if r.id = id then { r with name := name } else r)) },
       ⟨200, .student { ID := id, Name := name, Grade := 0 }⟩) := by
  obtain ⟨x, hx, hxid⟩ := hid
  obtain ⟨r, hr, hrid, hget⟩ := handleGet_found
    { db with rows := (db.rows.map
        (fun r => if r.id = id then { r with name := name } else r)) } param id hp
    ⟨_, List.mem_map.mpr ⟨x, hx, rfl⟩, by simp [hxid]⟩
  obtain ⟨y, -, rfl⟩ := List.mem_map.mp hr
  have hname : (if y.id = id then { y with name := name } else y).name = name := by
    by_cases hy : y.id = id
    · simp [hy]
    · simp [hy] at hrid
  rw [hget, hname]

theorem handleGet_grade (db : DB) (param : String) (got : Student)
    (h : (handleGet db param).2 = ⟨200, .student got⟩) : got.Grade = 0 := by
  cases hp : Atoi param with
  | none => simp [handleGet, hp] at h
  | some id =>
    by_cases hid : ∃ r ∈ db.rows, r.id = id
    · obtain ⟨r, -, -, hget⟩ := handleGet_found db param id hp hid
      rw [hget] at h
      simp only [Response.mk.injEq, Body.student.injEq, true_and] at h
      rw [← h]
    · have hmiss : ∀ r ∈ db.rows, r.id ≠ id := fun r hr he => hid ⟨r, hr, he⟩
      rw [handleGet_missing db param id hp hmiss] at h
      simp at h

theorem handleList_grade (db : DB) (name : String) :
    ∃ l, handleList db name = (db, ⟨200, .students l⟩) ∧ ∀ st ∈ l, st.Grade = 0 := by
  refine ⟨(if name = "" then indexScan db.rows
      else (indexScan db.rows).filter (fun r => decide (r.name = name))).map
        (fun r => { ID := r.id, Name := r.name, Grade := 0 }),
    by simp [handleList, GetAllStudents_eq], ?_⟩
  intro st hst
  obtain ⟨r, -, rfl⟩ := List.mem_map.mp hst
  rfl

theorem handleUpdate_updated (db db' : DB) (param : String) (body : ReqBody)
    (updated : Student)
    (h : handleUpdate db param body = (db', ⟨200, .student updated⟩)) :
    ∃ id student, Atoi param = some id ∧ body = .decoded student ∧
      (∃ r ∈ db.rows, r.id = id) ∧
      db' = { db with rows := (db.rows.map
        (fun r => if r.id = id then { r with name := student.Name } else r)) } ∧
      updated = { student with ID := id } := by
  cases hp : Atoi param with
  | none => simp [handleUpdate, hp] at h
  | some id =>
    cases body with
    | malformed msg => simp [handleUpdate, hp, ShouldBindJSON] at h
    | decoded student =>
      by_cases hname : student.Name = ""
      · simp [handleUpdate, hp, ShouldBindJSON, hname] at h
      · by_cases hid : ∃ r ∈ db.rows, r.id = id
        · by_cases hc : ∃ r ∈ db.rows, r.id ≠ id ∧ r.name = student.Name
          · rw [handleUpdate_conflict db param id student hp hname hid hc] at h
            simp at h
          · have hfree : ∀ r ∈ db.rows, r.name = student.Name → r.id = id := by
              intro r hr hn
              by_contra hne
              exact hc ⟨r, hr, hne, hn⟩
            rw [handleUpdate_ok db param id student hp hname hid hfree] at h
            simp only [Prod.mk.injEq, Response.mk.injEq, Body.student.injEq, true_and] at h
            exact ⟨id, student, rfl, rfl, hid, h.1.symm, h.2.symm⟩
        · have hmiss : ∀ r ∈ db.rows, r.id ≠ id := fun r hr he => hid ⟨r, hr, he⟩
          rw [handleUpdate_missing db param id student hp hname hmiss] at h
          simp at h

/-! ## Creating a student -/

/-- C1, as the code behaves: when a stored student already has the submitted name,
`CreateStudent` returns the driver's UNIQUE-constraint error, which is not the value
`ErrDuplicateName`, so the handler of POST /students answers 500 with the driver's
message instead of 409; the database is left as it was. -/
theorem create_duplicate_name_status (db : DB) (student : Student)
    (hname : student.Name ≠ "") (hheld : ∃ r ∈ db.rows, r.name = student.Name) :
    CreateStudent db student = (db, .error uniqueViolation) ∧
    uniqueViolation ≠ Error.ErrDuplicateName ∧
    handleCreate db (.decoded student) =
      (db, ⟨500, .error "UNIQUE constraint failed: students.name"⟩) := by
  refine ⟨?_, by simp [uniqueViolation], handleCreate_dup db student hname hheld⟩
  simp [CreateStudent, execInsert_dup db _ hheld]

theorem create_duplicate_name_status_witness :
    CreateStudent sampleDB { ID := 0, Name := "Ann", Grade := 90 } =
      (sampleDB, .error uniqueViolation) ∧
    uniqueViolation ≠ Error.ErrDuplicateName ∧
    handleCreate sampleDB (.decoded { ID := 0, Name := "Ann", Grade := 90 }) =
      (sampleDB, ⟨500, .error "UNIQUE constraint failed: students.name"⟩) :=
  create_duplicate_name_status sampleDB { ID := 0, Name := "Ann", Grade := 90 }
    (by decide) (by decide)

/-- C2: for every database and every decoded body whose non-empty name no stored student
has, POST /students answers 201 with a student carrying the submitted name and an id
that is positive, greater than the id of every stored row, and greater than the id
returned by every earlier successful create in any request history that led to this
database (whether or not that student was deleted since). -/
theorem create_unique_name_assigns_fresh_id (db : DB) (student : Student)
    (hname : student.Name ≠ "") (hfresh : ∀ r ∈ db.rows, r.name ≠ student.Name) :
    ∃ db' created,
      handleCreate db (.decoded student) = (db', ⟨201, .student created⟩) ∧
      created.Name = student.Name ∧ 0 < created.ID ∧
      (∀ r ∈ db.rows, r.id < created.ID) ∧
      (∀ (db₀ : DB) (reqs : List Request) (body : ReqBody) (earlier : Student),
        (serve db₀ reqs).1 = db →
        (Request.create body, (⟨201, .student earlier⟩ : Response)) ∈ (serve db₀ reqs).2 →
        earlier.ID < created.ID) := by
  refine ⟨_, _, handleCreate_fresh db student hname hfresh, rfl, nextRowid_pos db,
    id_lt_nextRowid db, ?_⟩
  intro db₀ reqs body earlier hdb hmem
  have hle := serve_created_le_seq reqs db₀ body earlier hmem
  rw [hdb] at hle
  exact lt_of_le_of_lt hle (seq_lt_nextRowid db)

theorem create_unique_name_assigns_fresh_id_witness :
    ∃ db' created,
      handleCreate sampleDB (.decoded { ID := 0, Name := "Cy", Grade := 70 }) =
        (db', ⟨201, .student created⟩) ∧
      created.Name = "Cy" ∧ 0 < created.ID ∧ 2 < created.ID := by
  obtain ⟨db', created, hpost, hn, hpos, -, hhist⟩ :=
    create_unique_name_assigns_fresh_id sampleDB { ID := 0, Name := "Cy", Grade := 70 }
      (by decide) (by decide)
  exact ⟨db', created, hpost, hn, hpos,
    hhist DB.empty
      [.create (.decoded { ID := 0, Name := "Ann", Grade := 90 }),
       .create (.decoded { ID := 0, Name := "Bob", Grade := 80 }),
       .get "2"]
      (.decoded { ID := 0, Name := "Bob", Grade := 80 }) { ID := 2, Name := "Bob", Grade := 80 }
      (by decide) (by decide)⟩

/-- C3: when POST /students succeeds for a body with name n and returns id i, a GET
/students/i on the resulting database (the path segment being any text that `Atoi`
reads as i) answers 200 with a student whose id is i and whose name is n. -/
theorem create_then_get_roundtrip (db db' : DB) (student created : Student)
    (param : String)
    (hpost : handleCreate db (.decoded student) = (db', ⟨201, .student created⟩))
    (hparam : Atoi param = some created.ID) :
    ∃ got, handleGet db' param = (db', ⟨200, .student got⟩) ∧
      got.ID = created.ID ∧ got.Name = student.Name := by
  obtain ⟨student', hbody, -, -, hdb, hcr⟩ := handleCreate_created db db' _ created hpost
  have hst : student' = student := by
    injection hbody with h
    exact h.symm
  subst hst
  have hid : created.ID = nextRowid db := by rw [hcr]
  rw [hid] at hparam
  rw [hdb, hid]
  exact ⟨_, handleGet_after_insert db student'.Name param hparam, rfl, rfl⟩

theorem create_then_get_roundtrip_witness :
    ∃ got, handleGet
        { rows := sampleDB.rows ++ [{ id := 3, name := "Cy", age := none, grade := none }],
          seq := 3 } "3" =
        ({ rows := sampleDB.rows ++ [{ id := 3, name := "Cy", age := none, grade := none }],
           seq := 3 }, ⟨200, .student got⟩) ∧
      got.ID = 3 ∧ got.Name = "Cy" :=
  create_then_get_roundtrip sampleDB
    { rows := sampleDB.rows ++ [{ id := 3, name := "Cy", age := none, grade := none }],
      seq := 3 }
    { ID := 0, Name := "Cy", Grade := 70 } { ID := 3, Name := "Cy", Grade := 70 } "3"
    (by decide) (by decide)

/-! ## Deleting a student -/

/-- C4: when a stored student has id i, DELETE /students/i answers 204; on the resulting
database GET /students/i answers 404 and a second DELETE /students/i answers 404 and
changes nothing. `DeleteStudent` returns `ErrStudentNotFound` exactly when no row has
the id, and then leaves the database as it was. -/
theorem delete_then_get_and_delete_again (db : DB) (param : String) (id : Int)
    (hparam : Atoi param = some id) (hheld : ∃ r ∈ db.rows, r.id = id) :
    (handleDelete db param).2 = ⟨204, .empty⟩ ∧
    handleGet (handleDelete db param).1 param =
      ((handleDelete db param).1, ⟨404, .error "student not found"⟩) ∧
    handleDelete (handleDelete db param).1 param =
      ((handleDelete db param).1, ⟨404, .error "student not found"⟩) ∧
    (∀ (d : DB) (i : Int),
      (DeleteStudent d i).2 = .error .ErrStudentNotFound ↔ ¬ ∃ r ∈ d.rows, r.id = i) ∧
    (∀ (d : DB) (i : Int), (¬ ∃ r ∈ d.rows, r.id = i) → (DeleteStudent d i).1 = d) := by
  have hdel := handleDelete_ok db param id hparam hheld
  have hgone : ∀ r ∈ (handleDelete db param).1.rows, r.id ≠ id := by
    intro r hr
    rw [hdel] at hr
    simpa using (List.mem_filter.mp hr).2
  refine ⟨by rw [hdel], handleGet_missing _ param id hparam hgone,
    handleDelete_missing _ param id hparam hgone, ?_, ?_⟩
  · intro d i
    constructor
    · intro herr hex
      rw [DeleteStudent_ok d i hex] at herr
      simp at herr
    · intro hno
      have hmiss : ∀ r ∈ d.rows, r.id ≠ i := fun r hr he => hno ⟨r, hr, he⟩
      rw [DeleteStudent_missing d i hmiss]
  · intro d i hno
    have hmiss : ∀ r ∈ d.rows, r.id ≠ i := fun r hr he => hno ⟨r, hr, he⟩
    rw [DeleteStudent_missing d i hmiss]

theorem delete_then_get_and_delete_again_witness :
    (handleDelete sampleDB "2").2 = ⟨204, .empty⟩ ∧
    handleGet (handleDelete sampleDB "2").1 "2" =
      ((handleDelete sampleDB "2").1, ⟨404, .error "student not found"⟩) ∧
    handleDelete (handleDelete sampleDB "2").1 "2" =
      ((handleDelete sampleDB "2").1, ⟨404, .error "student not found"⟩) ∧
    (∀ (d : DB) (i : Int),
      (DeleteStudent d i).2 = .error .ErrStudentNotFound ↔ ¬ ∃ r ∈ d.rows, r.id = i) ∧
    (∀ (d : DB) (i : Int), (¬ ∃ r ∈ d.rows, r.id = i) → (DeleteStudent d i).1 = d) :=
  delete_then_get_and_delete_again sampleDB "2" 2 (by decide) (by decide)

/-! ## Updating a student -/

/-- C5 fails as stated: student 1 is stored and the body is well-formed, yet PUT
/students/1 with the name of student 2 answers 500 and changes nothing, because the
UPDATE statement breaks the UNIQUE constraint on `name`. -/
theorem update_to_taken_name_is_500 :
    (∃ r ∈ sampleDB.rows, r.id = 1) ∧ Atoi "1" = some 1 ∧
    ShouldBindJSON (.decoded { ID := 0, Name := "Bob", Grade := 83 }) =
      .ok { ID := 0, Name := "Bob", Grade := 83 } ∧
    handleUpdate sampleDB "1" (.decoded { ID := 0, Name := "Bob", Grade := 83 }) =
      (sampleDB, ⟨500, .error "UNIQUE constraint failed: students.name"⟩) :=
  ⟨by decide, by decide, rfl, by decide⟩

/-- C5, amended: for a path segment read as id i and a decoded body with non-empty name
n, (a) when a stored student has id i and no student with another id has name n, PUT
/students/i answers 200 with id i and the submitted name and grade, and a following GET
/students/i answers 200 with name n; (b) when no stored student has id i, it answers
404 and leaves the database unchanged. -/
theorem update_student_status (db : DB) (param : String) (id : Int) (student : Student)
    (hparam : Atoi param = some id) (hname : student.Name ≠ "") :
    ((∃ r ∈ db.rows, r.id = id) → (∀ r ∈ db.rows, r.name = student.Name → r.id = id) →
      ∃ db', handleUpdate db param (.decoded student) =
          (db', ⟨200, .student { ID := id, Name := student.Name, Grade := student.Grade }⟩) ∧
        handleGet db' param =
          (db', ⟨200, .student { ID := id, Name := student.Name, Grade := 0 }⟩)) ∧
    ((∀ r ∈ db.rows, r.id ≠ id) →
      handleUpdate db param (.decoded student) = (db, ⟨404, .error "student not found"⟩)) := by
  refine ⟨?_, handleUpdate_missing db param id student hparam hname⟩
  intro hid hfree
  exact ⟨_, handleUpdate_ok db param id student hparam hname hid hfree,
    handleGet_after_update db student.Name param id hparam hid⟩

theorem update_student_status_witness :
    (∃ db', handleUpdate sampleDB "1" (.decoded { ID := 0, Name := "Anna", Grade := 83 }) =
        (db', ⟨200, .student { ID := 1, Name := "Anna", Grade := 83 }⟩) ∧
      handleGet db' "1" = (db', ⟨200, .student { ID := 1, Name := "Anna", Grade := 0 }⟩)) ∧
    handleUpdate sampleDB "7" (.decoded { ID := 0, Name := "Anna", Grade := 83 }) =
      (sampleDB, ⟨404, .error "student not found"⟩) :=
  ⟨(update_student_status sampleDB "1" 1 { ID := 0, Name := "Anna", Grade := 83 }
      (by decide) (by decide)).1 (by decide) (by decide),
   (update_student_status sampleDB "7" 7 { ID := 0, Name := "Anna", Grade := 83 }
      (by decide) (by decide)).2 (by decide)⟩

/-! ## Getting and listing students -/

/-- C6: GET /students/p answers 400 when `Atoi` rejects the path segment p; 404 when p is
read as an id no stored row has; and 200 exactly when p is read as an id some stored
row has, the body then carrying that id and the name of the row with that id (the one
row with it, ids being a primary key). The database is never changed. -/
theorem get_by_id_status (db : DB) (param : String) :
    (Atoi param = none →
      handleGet db param = (db, ⟨400, .error "invalid student id"⟩)) ∧
    (∀ id, Atoi param = some id → (∀ r ∈ db.rows, r.id ≠ id) →
      handleGet db param = (db, ⟨404, .error "student not found"⟩)) ∧
    (∀ id, Atoi param = some id → (∃ r ∈ db.rows, r.id = id) →
      ∃ r ∈ db.rows, r.id = id ∧
        handleGet db param =
          (db, ⟨200, .student { ID := id, Name := r.name, Grade := 0 }⟩)) ∧
    (∀ id r, Atoi param = some id → (db.rows.map Row.id).Nodup → r ∈ db.rows → r.id = id →
      handleGet db param =
        (db, ⟨200, .student { ID := r.id, Name := r.name, Grade := 0 }⟩)) ∧
    ((handleGet db param).2.status = 200 ↔
      ∃ id, Atoi param = some id ∧ ∃ r ∈ db.rows, r.id = id) := by
  refine ⟨?_, ?_, ?_, ?_, ?_⟩
  · intro hp
    simp [handleGet, hp]
  · intro id hp hmiss
    exact handleGet_missing db param id hp hmiss
  · intro id hp hid
    exact handleGet_found db param id hp hid
  · intro id r hp hnodup hr hrid
    obtain ⟨r', hr', hrid', hget⟩ := handleGet_found db param id hp ⟨r, hr, hrid⟩
    have heq : r' = r := List.inj_on_of_nodup_map hnodup hr' hr (by rw [hrid', hrid])
    rw [hget, heq, hrid]
  · constructor
    · intro hst
      cases hp : Atoi param with
      | none => simp [handleGet, hp] at hst
      | some id =>
        refine ⟨id, rfl, ?_⟩
        by_contra hno
        have hmiss : ∀ r ∈ db.rows, r.id ≠ id := fun r hr he => hno ⟨r, hr, he⟩
        rw [handleGet_missing db param id hp hmiss] at hst
        simp at hst
    · rintro ⟨id, hp, hid⟩
      obtain ⟨r, -, -, hget⟩ := handleGet_found db param id hp hid
      rw [hget]

theorem get_by_id_status_witness :
    handleGet sampleDB "two" = (sampleDB, ⟨400, .error "invalid student id"⟩) ∧
    handleGet sampleDB "7" = (sampleDB, ⟨404, .error "student not found"⟩) ∧
    handleGet sampleDB "2" =
      (sampleDB, ⟨200, .student { ID := 2, Name := "Bob", Grade := 0 }⟩) :=
  ⟨(get_by_id_status sampleDB "two").1 (by decide),
   (get_by_id_status sampleDB "7").2.1 7 (by decide) (by decide),
   (get_by_id_status sampleDB "2").2.2.2.1 2
      { id := 2, name := "Bob", age := none, grade := none }
      (by decide) (by decide) (by decide) (by decide)⟩

/-- C7 fails as stated: after creating Bob and then Ann the table stores Bob (id 1)
before Ann (id 2), and GET /students answers 200 with Ann before Bob, which is not the
storage order: the listing is read from the index on `name`. -/
theorem list_is_not_in_storage_order :
    (serve DB.empty
      [.create (.decoded { ID := 0, Name := "Bob", Grade := 80 }),
       .create (.decoded { ID := 0, Name := "Ann", Grade := 90 })]).1 = bobThenAnn ∧
    bobThenAnn.rows.map (fun r => (r.id, r.name)) = [(1, "Bob"), (2, "Ann")] ∧
    handleList bobThenAnn "" =
      (bobThenAnn, ⟨200, .students [{ ID := 2, Name := "Ann", Grade := 0 },
                                    { ID := 1, Name := "Bob", Grade := 0 }]⟩) ∧
    ([{ ID := 2, Name := "Ann", Grade := 0 }, { ID := 1, Name := "Bob", Grade := 0 }] :
        List Student).map (fun st => (st.ID, st.Name)) ≠
      bobThenAnn.rows.map (fun r => (r.id, r.name)) := by
  decide

/-- C7, amended: for every database and filter f, `GetAllStudents` returns a list without
error and GET /students answers 200 with that list, leaving the database unchanged. The
list is in ascending order of name. With f empty its (id, name) entries are those of the
stored rows, one per row; with f non-empty they are those of exactly the rows whose
name equals f. On an empty table, or when no row has name f, the list is empty. -/
theorem list_students (db : DB) (f : String) :
    ∃ l, GetAllStudents db f = .ok l ∧
      handleList db f = (db, ⟨200, .students l⟩) ∧
      (l.map Student.Name).Sorted (fun a b => a ≤ b) ∧
      (f = "" →
        (l.map (fun st => (st.ID, st.Name))).Perm (db.rows.map (fun r => (r.id, r.name)))) ∧
      (f ≠ "" →
        (l.map (fun st => (st.ID, st.Name))).Perm
          ((db.rows.filter (fun r => decide (r.name = f))).map (fun r => (r.id, r.name))) ∧
        ∀ i n, (i, n) ∈ l.map (fun st => (st.ID, st.Name)) ↔
          n = f ∧ ∃ r ∈ db.rows, r.id = i ∧ r.name = f) ∧
      (db.rows = [] → l = []) ∧
      (f ≠ "" → (∀ r ∈ db.rows, r.name ≠ f) → l = []) := by
  have hsorted : ∀ rows : List Row, rows.Sorted indexLE →
      ((rows.map (fun r => ({ ID := r.id, Name := r.name, Grade := 0 } : Student))).map
        Student.Name).Sorted (fun a b => a ≤ b) := by
    intro rows hrows
    rw [List.map_map]
    exact List.pairwise_map.mpr (hrows.imp (fun {a b} h => indexLE_name_le a b h))
  refine ⟨(if f = "" then indexScan db.rows
      else (indexScan db.rows).filter (fun r => decide (r.name = f))).map
      (fun r => { ID := r.id, Name := r.name, Grade := 0 }),
    GetAllStudents_eq db f, by simp [handleList, GetAllStudents_eq], ?_, ?_, ?_, ?_, ?_⟩
  · by_cases hf : f = ""
    · simp only [hf, if_true]
      exact hsorted _ (indexScan_sorted db.rows)
    · simp only [hf, if_false]
      exact hsorted _ ((indexScan_sorted db.rows).filter _)
  · intro hf
    simp only [hf, if_true, List.map_map]
    exact (indexScan_perm db.rows).map _
  · intro hf
    simp only [hf, if_false, List.map_map]
    refine ⟨((indexScan_perm db.rows).filter _).map _, ?_⟩
    intro i n
    simp only [List.mem_map, List.mem_filter, Function.comp_def, decide_eq_true_eq,
      Prod.mk.injEq, mem_indexScan]
    constructor
    · rintro ⟨r, ⟨hr, hrn⟩, hi, hn⟩
      exact ⟨by rw [← hn, hrn], r, hr, hi, hrn⟩
    · rintro ⟨hn, r, hr, hi, hrn⟩
      exact ⟨r, ⟨hr, hrn⟩, hi, by rw [hrn, hn]⟩
  · intro hempty
    simp [hempty, indexScan]
  · intro hf hno
    have hnil : (indexScan db.rows).filter (fun r => decide (r.name = f)) = [] := by
      rw [List.filter_eq_nil_iff]
      intro r hr
      simpa using hno r ((mem_indexScan db.rows r).mp hr)
    simp [hf, hnil]

theorem list_students_witness :
    (∃ l, handleList DB.empty "" = (DB.empty, ⟨200, .students l⟩) ∧ l = []) ∧
    (∃ l, handleList bobThenAnn "" = (bobThenAnn, ⟨200, .students l⟩) ∧
      (l.map Student.Name).Sorted (fun a b => a ≤ b) ∧
      (l.map (fun st => (st.ID, st.Name))).Perm [(1, "Bob"), (2, "Ann")]) ∧
    (∃ l, handleList bobThenAnn "Cy" = (bobThenAnn, ⟨200, .students l⟩) ∧ l = []) := by
  obtain ⟨l₁, -, h₁, -, -, -, e₁, -⟩ := list_students DB.empty ""
  obtain ⟨l₂, -, h₂, s₂, p₂, -, -, -⟩ := list_students bobThenAnn ""
  obtain ⟨l₃, -, h₃, -, -, -, -, e₃⟩ := list_students bobThenAnn "Cy"
  exact ⟨⟨l₁, h₁, e₁ rfl⟩, ⟨l₂, h₂, s₂, p₂ rfl⟩, ⟨l₃, h₃, e₃ (by decide) (by decide)⟩⟩

/-! ## Name uniqueness -/

/-- C8: in every database reached from the empty table by any sequence of requests, and
more generally from any database satisfying the table constraints, no two rows share a
name. A create whose name a stored student has fails: `CreateStudent` returns an error,
POST /students answers with an error status, and the database is left as it was. An
update whose name a student with another id has fails: `UpdateStudent` returns an
error, PUT /students/i with that name in the body answers with an error status
whatever else the body holds, and the database is left as it was. -/
theorem names_stay_unique :
    (∀ reqs : List Request, ((serve DB.empty reqs).1.rows.map Row.name).Nodup) ∧
    (∀ (db : DB) (reqs : List Request), db.Constraints → (serve db reqs).1.Constraints) ∧
    (∀ (db : DB) (student : Student), (∃ r ∈ db.rows, r.name = student.Name) →
      (∃ err, CreateStudent db student = (db, .error err)) ∧
      (handleCreate db (.decoded student)).1 = db ∧
      400 ≤ (handleCreate db (.decoded student)).2.status) ∧
    (∀ (db : DB) (student : Student),
      (∃ r ∈ db.rows, r.id ≠ student.ID ∧ r.name = student.Name) →
      ∃ err, UpdateStudent db student = (db, .error err)) ∧
    (∀ (db : DB) (param : String) (id : Int) (student : Student),
      Atoi param = some id →
      (∃ r ∈ db.rows, r.id ≠ id ∧ r.name = student.Name) →
      (handleUpdate db param (.decoded student)).1 = db ∧
      400 ≤ (handleUpdate db param (.decoded student)).2.status) := by
  refine ⟨fun reqs => (serve_constraints reqs DB.empty constraints_empty).2,
    fun db reqs hc => serve_constraints reqs db hc, ?_, ?_, ?_⟩
  · intro db student hheld
    refine ⟨⟨uniqueViolation, by simp [CreateStudent, execInsert_dup db _ hheld]⟩, ?_⟩
    by_cases hname : student.Name = ""
    · simp [handleCreate, ShouldBindJSON, hname]
    · rw [handleCreate_dup db student hname hheld]
      simp
  · intro db student hheld
    by_cases hid : ∃ r ∈ db.rows, r.id = student.ID
    · exact ⟨uniqueViolation, UpdateStudent_conflict db student hid hheld⟩
    · have hmiss : ∀ r ∈ db.rows, r.id ≠ student.ID := fun r hr he => hid ⟨r, hr, he⟩
      exact ⟨.ErrStudentNotFound, UpdateStudent_missing db student hmiss⟩
  · intro db param id student hp hheld
    by_cases hname : student.Name = ""
    · simp [handleUpdate, hp, ShouldBindJSON, hname]
    · by_cases hid : ∃ r ∈ db.rows, r.id = id
      · rw [handleUpdate_conflict db param id student hp hname hid hheld]
        simp
      · have hmiss : ∀ r ∈ db.rows, r.id ≠ id := fun r hr he => hid ⟨r, hr, he⟩
        rw [handleUpdate_missing db param id student hp hname hmiss]
        simp

theorem names_stay_unique_witness :
    ((serve DB.empty
        [.create (.decoded { ID := 0, Name := "Ann", Grade := 90 }),
         .create (.decoded { ID := 0, Name := "Ann", Grade := 80 }),
         .create (.decoded { ID := 0, Name := "Bob", Grade := 70 }),
         .update "2" (.decoded { ID := 0, Name := "Ann", Grade := 70 })]).1.rows.map
      Row.name).Nodup ∧
    ((handleCreate sampleDB (.decoded { ID := 0, Name := "Ann", Grade := 80 })).1 = sampleDB ∧
      400 ≤ (handleCreate sampleDB (.decoded { ID := 0, Name := "Ann", Grade := 80 })).2.status) ∧
    ((handleUpdate sampleDB "2" (.decoded { ID := 0, Name := "Ann", Grade := 70 })).1 = sampleDB ∧
      400 ≤ (handleUpdate sampleDB "2"
        (.decoded { ID := 0, Name := "Ann", Grade := 70 })).2.status) :=
  ⟨names_stay_unique.1 _,
   (names_stay_unique.2.2.1 sampleDB { ID := 0, Name := "Ann", Grade := 80 } (by decide)).2,
   names_stay_unique.2.2.2.2 sampleDB "2" 2 { ID := 0, Name := "Ann", Grade := 70 }
     (by decide) (by decide)⟩

/-! ## Validation -/

/-- C9: a body the decoder rejects, and a decoded body whose name is empty, fail
`ShouldBindJSON`; a POST with a body failing `ShouldBindJSON` answers 400, and so does
a PUT with such a body; a GET, PUT or DELETE whose path segment `Atoi` rejects answers
400. In each case the database is returned as it was and the response is a fixed
function of the request alone. -/
theorem validation_before_repository (db : DB) :
    (∀ msg, ShouldBindJSON (.malformed msg) = .error msg) ∧
    (∀ student, student.Name = "" → ∃ msg, ShouldBindJSON (.decoded student) = .error msg) ∧
    (∀ body msg, ShouldBindJSON body = .error msg →
      handleCreate db body = (db, ⟨400, .error msg⟩) ∧
      ∀ param id, Atoi param = some id →
        handleUpdate db param body = (db, ⟨400, .error msg⟩)) ∧
    (∀ param, Atoi param = none →
      handleGet db param = (db, ⟨400, .error "invalid student id"⟩) ∧
      (∀ body, handleUpdate db param body = (db, ⟨400, .error "invalid student id"⟩)) ∧
      handleDelete db param = (db, ⟨400, .error "invalid student id"⟩)) := by
  refine ⟨fun msg => rfl, ?_, ?_, ?_⟩
  · intro student hname
    exact ⟨"Key: 'Student.Name' Error:Field validation for 'Name' failed on the 'required' tag",
      by simp [ShouldBindJSON, hname]⟩
  · intro body msg hbind
    refine ⟨handleCreate_invalid db body msg hbind, ?_⟩
    intro param id hp
    simp [handleUpdate, hp, hbind]
  · intro param hp
    refine ⟨by simp [handleGet, hp], ?_, by simp [handleDelete, hp]⟩
    intro body
    simp [handleUpdate, hp]

theorem validation_before_repository_witness :
    handleCreate sampleDB (.decoded { ID := 0, Name := "", Grade := 50 }) =
      (sampleDB, ⟨400, .error
        "Key: 'Student.Name' Error:Field validation for 'Name' failed on the 'required' tag"⟩) ∧
    handleUpdate sampleDB "1" (.malformed "unexpected end of JSON input") =
      (sampleDB, ⟨400, .error "unexpected end of JSON input"⟩) ∧
    handleDelete sampleDB "1x" = (sampleDB, ⟨400, .error "invalid student id"⟩) :=
  ⟨((validation_before_repository sampleDB).2.2.1
      (.decoded { ID := 0, Name := "", Grade := 50 })
      "Key: 'Student.Name' Error:Field validation for 'Name' failed on the 'required' tag"
      rfl).1,
   ((validation_before_repository sampleDB).2.2.1
      (.malformed "unexpected end of JSON input") "unexpected end of JSON input"
      rfl).2 "1" 1 (by decide),
   ((validation_before_repository sampleDB).2.2.2 "1x" (by decide)).2.2⟩

/-! ## Grade -/

/-- C10: the grade is echoed and not stored. When POST /students succeeds, the 201 body
carries the submitted grade, a GET of the assigned id on the resulting database answers
200 with grade 0, and every entry of GET /students has grade 0. When PUT /students/p
succeeds, the 200 body carries the submitted grade, a GET of the same path answers 200
with grade 0, and every successful GET and every entry of GET /students on the
resulting database has grade 0. -/
theorem grade_echoed_not_persisted (db : DB) (student : Student) :
    (∀ db' created,
      handleCreate db (.decoded student) = (db', ⟨201, .student created⟩) →
      created.Grade = student.Grade ∧
      (∀ param, Atoi param = some created.ID →
        handleGet db' param =
          (db', ⟨200, .student { ID := created.ID, Name := student.Name, Grade := 0 }⟩)) ∧
      (∀ name, ∃ l, handleList db' name = (db', ⟨200, .students l⟩) ∧
        ∀ st ∈ l, st.Grade = 0)) ∧
    (∀ param db' updated,
      handleUpdate db param (.decoded student) = (db', ⟨200, .student updated⟩) →
      updated.Grade = student.Grade ∧
      handleGet db' param =
        (db', ⟨200, .student { ID := updated.ID, Name := student.Name, Grade := 0 }⟩) ∧
      (∀ p got, (handleGet db' p).2 = ⟨200, .student got⟩ → got.Grade = 0) ∧
      (∀ name, ∃ l, handleList db' name = (db', ⟨200, .students l⟩) ∧
        ∀ st ∈ l, st.Grade = 0)) := by
  constructor
  · intro db' created hpost
    obtain ⟨student', hbody, -, -, hdb, hcr⟩ := handleCreate_created db db' _ created hpost
    have hst : student' = student := by
      injection hbody with h
      exact h.symm
    subst hst
    refine ⟨by rw [hcr], ?_, fun name => handleList_grade db' name⟩
    intro param hp
    have hid : created.ID = nextRowid db := by rw [hcr]
    rw [hid] at hp
    rw [hdb, hid]
    exact handleGet_after_insert db student'.Name param hp
  · intro param db' updated hput
    obtain ⟨id, student', hp, hbody, hheld, hdb, hup⟩ :=
      handleUpdate_updated db db' param _ updated hput
    have hst : student' = student := by
      injection hbody with h
      exact h.symm
    subst hst
    refine ⟨by rw [hup], ?_, fun p got h => handleGet_grade db' p got h,
      fun name => handleList_grade db' name⟩
    have hid : updated.ID = id := by rw [hup]
    rw [hdb, hid]
    exact handleGet_after_update db student'.Name param id hp hheld

theorem grade_echoed_not_persisted_witness :
    (handleCreate sampleDB (.decoded { ID := 0, Name := "Cy", Grade := 98 })).2 =
      ⟨201, .student { ID := 3, Name := "Cy", Grade := 98 }⟩ ∧
    handleGet (handleCreate sampleDB (.decoded { ID := 0, Name := "Cy", Grade := 98 })).1
        "3" =
      ((handleCreate sampleDB (.decoded { ID := 0, Name := "Cy", Grade := 98 })).1,
        ⟨200, .student { ID := 3, Name := "Cy", Grade := 0 }⟩) :=
  ⟨by decide,
   ((grade_echoed_not_persisted sampleDB { ID := 0, Name := "Cy", Grade := 98 }).1
      (handleCreate sampleDB (.decoded { ID := 0, Name := "Cy", Grade := 98 })).1
      { ID := 3, Name := "Cy", Grade := 98 } (by decide)).2.1 "3" (by decide)⟩

end StudentService
